import Mathlib

/-!
# Verification of the PersonSentimentAnalyzer aggregation and collection core

Shallow embedding of `backend/app_logic.py` (the aggregation / alias-merge
engine) and `backend/vk_parser/parser.py` (the VK collection engine), with
theorems settling the specification claims about them.

Python dictionaries are modelled as association lists with first-occurrence
lookup, in-place update of the first matching key (appending when the key is
absent), and key deletion — exactly the observable semantics of `d[k]`,
`d[k] = v`, `k in d`, `d.get(k, dflt)` and `del d[k]` on dictionaries (whose
key lists are duplicate-free; the operations below agree with Python on every
duplicate-free association list).  Python `int` values are modelled as `Int`,
strings as `String`, and heterogeneous dictionary values by the small `PyVal`
type below.
-/

set_option synthInstance.maxSize 1000

namespace PSA

/-- First-occurrence lookup: models Python `d[k]` / `d.get(k)`. -/
def alookup {α : Type} (k : String) : List (String × α) → Option α
  | [] => none
  | (k', v) :: rest => if k' = k then some v else alookup k rest

/-- Replace the value at the first occurrence of `k`, or append `(k, v)` when
`k` is absent: models Python `d[k] = v` (which keeps the key's position if
present and appends at the end otherwise). -/
def aset {α : Type} (k : String) (v : α) : List (String × α) → List (String × α)
  | [] => [(k, v)]
  | (k', v') :: rest => if k' = k then (k, v) :: rest else (k', v') :: aset k v rest

/-- Remove every entry with key `k`: models Python `del d[k]` (on a
duplicate-free association list the two coincide). -/
def aerase {α : Type} (k : String) (m : List (String × α)) : List (String × α) :=
  m.filter (fun p => p.1 ≠ k)

/-- Weighted sum of the values of an association list. -/
def sumBy {α : Type} (f : α → Int) (m : List (String × α)) : Int :=
  (m.map (fun p => f p.2)).sum

/-- A Python value as it occurs inside a mention-record dictionary:
`None`, a string, or an integer. -/
inductive PyVal : Type
  | vNone : PyVal
  | vStr : String → PyVal
  | vInt : Int → PyVal
deriving DecidableEq, Repr

/-- Sentiment counts for one (entity, date) cell: Python
`{sentiment_label: count}`. -/
abbrev CountMap := List (String × Int)

/-- Per-date cells of one entity: Python `{date_key: {label: count}}`. -/
abbrev DateMap := List (String × CountMap)

/-- The aggregated summary: Python `{entity: {date: {label: count}}}`
(`final_aggregated_data` in `app_logic.py`). -/
abbrev Summary := List (String × DateMap)

/-- A detailed mention record, kept as the Python dictionary it is:
the aggregator builds it with fixed keys (`app_logic.py` lines 114-125) and
the alias merge probes it with `dict.get`. -/
abbrev Mention := List (String × PyVal)

/-- Python `sum(cell.values())` for a sentiment-count cell. -/
def sumCM (m : CountMap) : Int := sumBy id m

/-- Python `sum` of all counts under all dates of one entity:
`sum(sum(cell.values()) for cell in dates.values())`. -/
def sumDM (m : DateMap) : Int := sumBy sumCM m

/-- Python `summary.get(entity, {})`: the date map of an entity, empty when absent. -/
def getDates (s : Summary) (entity : String) : DateMap :=
  (alookup entity s).getD []

/-- The zero-seeded cell `{label: 0 for label in tesa_id2label.values()}`
followed by `cell["UNKNOWN"] = 0` (`app_logic.py` lines 104-107 and 166-168). -/
def initCounts (labels : List String) : CountMap :=
  aset "UNKNOWN" 0 (labels.foldl (fun m l => aset l 0 m) [])

/-- Models the Python branch condition `not canonical_name.strip()`
(`app_logic.py` line 153): true exactly when the string is empty or consists
of whitespace only. -/
def pyStripEmpty (s : String) : Bool :=
  s.toList.all (fun c => c.isWhitespace)

/-- One date bucket of an alias merged into the canonical entity's date map
(`app_logic.py` lines 165-171): create the bucket zero-seeded if absent, then
add every (sentiment, count) pair of the alias bucket into it with
`cell[sentiment] = cell.get(sentiment, 0) + count`. -/
def mergeDate (labels : List String) (dateKey : String) (counts : CountMap)
    (canonDates : DateMap) : DateMap :=
  let cur : CountMap :=
    match alookup dateKey canonDates with
    | some c => c
    | none => initCounts labels
  let merged : CountMap :=
    counts.foldl (fun cell p => aset p.1 ((alookup p.1 cell).getD 0 + p.2) cell) cur
  aset dateKey merged canonDates

/-- The body of `for alias in aliases_to_merge` (`app_logic.py` lines
160-174): skip the alias when it equals the canonical name or is absent;
otherwise fold all its date buckets into `summary[canonical]` and delete the
alias key.  (The canonical key is guaranteed present by the caller, line
158-159; `getD []` covers the impossible miss.) -/
def mergeAlias (labels : List String) (canonical : String)
    (s : Summary) (aliasName : String) : Summary :=
  if aliasName = canonical then s
  else
    match alookup aliasName s with
    | none => s
    | some aliasDates =>
      let canonDates :=
        aliasDates.foldl (fun cd p => mergeDate labels p.1 p.2 cd) (getDates s canonical)
      aerase aliasName (aset canonical canonDates s)

/-- The mention-rewriting body of `for mention in new_detailed_mentions`
(`app_logic.py` lines 175-177): `mention.get("entity")` (default `None`), and
Python's `x in aliases` membership, which on a list of strings is true only
for an equal string — never for `None` or an int. -/
def rewriteMention (aliases : List String) (canonical : String) (m : Mention) : Mention :=
  let got : PyVal := (alookup "entity" m).getD PyVal.vNone
  let isIn : Bool :=
    match got with
    | PyVal.vStr s => aliases.contains s
    | _ => false
  if isIn then aset "entity" (PyVal.vStr canonical) m else m

/-- The method `AnalysisService.reaggregate_with_aliases` (`app_logic.py` lines
130-178).  `copy.deepcopy` of the inputs is the identity on the pure values
modelled here (the object-identity effects are modelled separately by
`reaggregateHeap`); all subsequent in-place mutation is therefore expressed
functionally on the copies.  `labels` stands for
`self.tesa_id2label.values()`. -/
def reaggregate_with_aliases (labels : List String) (current_summary : Summary)
    (current_detailed_mentions : List Mention) (aliases_to_merge : List String)
    (canonical_name : String) : Summary × List Mention :=
  if pyStripEmpty canonical_name then (current_summary, current_detailed_mentions)
  else
    let s0 : Summary :=
      if (alookup canonical_name current_summary).isSome then current_summary
      else aset canonical_name ([] : DateMap) current_summary
    let s1 : Summary := aliases_to_merge.foldl (mergeAlias labels canonical_name) s0
    let m1 : List Mention :=
      current_detailed_mentions.map (rewriteMention aliases_to_merge canonical_name)
    (s1, m1)

/-! ## The aggregation pass `_aggregate_nlp_results` (`app_logic.py` 48-128) -/

/-- Civil date `(year, month, day)` from a count of days since the Unix
epoch — the standard era-based calendar algorithm, written with the same
truncating integer division Python's calendar arithmetic resolves to.  This
models the calendar part of `datetime.datetime.fromtimestamp`. -/
def civilFromDays (z0 : Int) : Int × Nat × Nat :=
  let z : Int := z0 + 719468
  let era : Int := (if 0 ≤ z then z else z - 146096) / 146097
  let doe : Nat := (z - era * 146097).toNat
  let yoe : Nat := (doe - doe / 1460 + doe / 36524 - doe / 146096) / 365
  let y : Int := (yoe : Int) + era * 400
  let doy : Nat := doe - (365 * yoe + yoe / 4 - yoe / 100)
  let mp : Nat := (5 * doy + 2) / 153
  let d : Nat := doy - (153 * mp + 2) / 5 + 1
  let m : Nat := if mp < 10 then mp + 3 else mp - 9
  (if m ≤ 2 then y + 1 else y, m, d)

/-- Zero-padded decimal rendering, as `strftime` produces. -/
def padNat (width : Nat) (n : Nat) : String :=
  let s := toString n
  String.mk (List.replicate (width - s.length) '0') ++ s

/-- Models `datetime.datetime.fromtimestamp(ts).strftime("%Y-%m-%d")`
(`app_logic.py` line 88), with the process-local timezone abstracted as UTC:
the timestamp's day is rendered as `YYYY-MM-DD`.  `none` models the
`except (TypeError, ValueError)` branch for timestamps whose year falls
outside `datetime`'s supported range 1..9999 (line 89-91). -/
def dateKeyOfTs (ts : Int) : Option String :=
  let days := Int.fdiv ts 86400
  let c := civilFromDays days
  if c.1 < 1 ∨ 9999 < c.1 then none
  else some (padNat 4 c.1.toNat ++ "-" ++ padNat 2 c.2.1 ++ "-" ++ padNat 2 c.2.2)

/-- One metadata record of `metadata_for_nlp`, restricted to the keys the
aggregator reads (`meta.get(...)`, `app_logic.py` lines 83, 120-124);
`PyVal.vNone` models a missing key. -/
structure Meta : Type where
  date_timestamp : Option Int
  source_type : PyVal
  source_id : PyVal
  post_id_parent : PyVal
  group_name : PyVal
  original_text_preview : PyVal
deriving DecidableEq, Repr

/-- One opinion pair from the NLP pipeline (`opinion_pair.get(...)`,
`app_logic.py` lines 93-95): `none` models a missing key. -/
structure Opinion : Type where
  entity : Option String
  entity_original : Option String
  polarity : Option String
deriving DecidableEq, Repr

/-- A possibly-`None` Python string as a `PyVal`. -/
def optStrVal : Option String → PyVal
  | none => PyVal.vNone
  | some s => PyVal.vStr s

/-- The mention record appended for one opinion (`app_logic.py` lines
114-125), with its keys in insertion order. -/
def mkMention (entity_normalized : String) (entity_original : Option String)
    (polarity : String) (dateKey : String) (ts : Int) (meta : Meta) : Mention :=
  [("entity_normalized", PyVal.vStr entity_normalized),
   ("entity_original", optStrVal entity_original),
   ("polarity", PyVal.vStr polarity),
   ("date", PyVal.vStr dateKey),
   ("timestamp", PyVal.vInt ts),
   ("source_type", meta.source_type),
   ("source_id", meta.source_id),
   ("post_id_if_comment", meta.post_id_parent),
   ("group_name", meta.group_name),
   ("text_preview", meta.original_text_preview)]

/-- The increment of one sentiment cell (`app_logic.py` lines 109-112):
`cell[polarity] += 1` when the label is a key of the cell, else
`cell["UNKNOWN"] += 1` (the `UNKNOWN` key is guaranteed by the seeding). -/
def bumpCell (p : String) (cell : CountMap) : CountMap :=
  if (alookup p cell).isSome then aset p ((alookup p cell).getD 0 + 1) cell
  else aset "UNKNOWN" ((alookup "UNKNOWN" cell).getD 0 + 1) cell

/-- The summary update for one counted opinion (`app_logic.py` lines
100-112): ensure the entity bucket exists (empty), ensure its date bucket
exists (zero-seeded), and bump the polarity's count in that cell. -/
def bumpSummary (labels : List String) (e dateKey p : String) (s0 : Summary) : Summary :=
  let s : Summary := if (alookup e s0).isSome then s0 else aset e ([] : DateMap) s0
  let dm : DateMap := (alookup e s).getD []
  let dm : DateMap :=
    if (alookup dateKey dm).isSome then dm else aset dateKey (initCounts labels) dm
  let cell : CountMap := bumpCell p ((alookup dateKey dm).getD [])
  aset e (aset dateKey cell dm) s

/-- The body of `for opinion_pair in text_opinions` (`app_logic.py` lines
92-125): skip when the entity or polarity is missing or empty (Python
falsiness, line 97); otherwise bump the entity/date/polarity count and
append the mention record. -/
def processOpinion (labels : List String) (dateKey : String) (ts : Int) (meta : Meta)
    (st : Summary × List Mention) (op : Opinion) : Summary × List Mention :=
  match op.entity, op.polarity with
  | some e, some p =>
    if e = "" ∨ p = "" then st
    else
      (bumpSummary labels e dateKey p st.1,
       st.2 ++ [mkMention e op.entity_original p dateKey ts meta])
  | _, _ => st

/-- The body of the outer loop of `_aggregate_nlp_results` for one
(text, metadata) pair (`app_logic.py` lines 78-125): skip the text when its
metadata has no usable timestamp, otherwise process each of its opinions. -/
def processText (labels : List String) (st : Summary × List Mention)
    (pair : List Opinion × Meta) : Summary × List Mention :=
  match pair.2.date_timestamp with
  | none => st
  | some ts =>
    match dateKeyOfTs ts with
    | none => st
    | some dateKey => pair.1.foldl (processOpinion labels dateKey ts pair.2) st

/-- The method `AnalysisService._aggregate_nlp_results` (`app_logic.py` lines 48-128).
The source loop `for i, text_opinions in enumerate(...)` skips (with
`continue`) every index with no matching metadata, which is exactly
processing `nlp.zip metas`.  Returns the pair
(`summary_by_entity_date`, `detailed_mentions`). -/
def aggregate_nlp_results (labels : List String) (nlp : List (List Opinion))
    (metas : List Meta) : Summary × List Mention :=
  (nlp.zip metas).foldl (processText labels) ([], [])

/-- Python `summary[e][d]` read with `.get`-style defaults: the sentiment cell of
entity `e` at date `d`, empty when absent. -/
def cellOf (s : Summary) (e d : String) : CountMap :=
  (alookup d ((alookup e s).getD [])).getD []

/-- Does a mention record carry `entity_normalized == e` and `date == d`? -/
def mentionMatches (e d : String) (m : Mention) : Bool :=
  alookup "entity_normalized" m == some (PyVal.vStr e)
    && alookup "date" m == some (PyVal.vStr d)

/-- The number of mention records with `entity_normalized == e` and
`date == d`. -/
def countMentions (ms : List Mention) (e d : String) : Nat :=
  (ms.filter (mentionMatches e d)).length

/-! ## Object identity for `reaggregate_with_aliases` (claim C3)

`copy.deepcopy` and in-place mutation are phenomena of Python's object
identity, so this fragment carries the heap explicitly: the two top-level
collections the function receives and returns live at addresses, and
`deepcopy` allocates fresh addresses holding the (purely modelled)
values. -/

/-- Address lookup in a heap fragment. -/
def hlookup {α : Type} (k : Nat) : List (Nat × α) → Option α
  | [] => none
  | (k', v) :: rest => if k' = k then some v else hlookup k rest

/-- The heap of collections relevant to one `reaggregate_with_aliases`
call: summary dicts and mention lists, keyed by object identity.
`nextAddr` is the allocator: every live address is below it. -/
structure ReaggHeap : Type where
  summaries : List (Nat × Summary)
  mentionLists : List (Nat × List Mention)
  nextAddr : Nat
deriving DecidableEq, Repr

/-- The function `reaggregate_with_aliases` with object identity explicit (`app_logic.py`
lines 152-178): on the blank-canonical early return (lines 153-155) the very
input objects are returned and the heap is untouched; otherwise
`copy.deepcopy` (lines 156-157) allocates two fresh objects carrying copies
of the inputs' values, every mutation of the merge happens on those fresh
objects (computed by the pure `reaggregate_with_aliases`), and their
addresses are returned. -/
def reaggregateHeap (labels : List String) (h : ReaggHeap) (sAddr mAddr : Nat)
    (aliases : List String) (canonical : String) : (Nat × Nat) × ReaggHeap :=
  if pyStripEmpty canonical then ((sAddr, mAddr), h)
  else
    let sVal : Summary := (hlookup sAddr h.summaries).getD []
    let mVal : List Mention := (hlookup mAddr h.mentionLists).getD []
    let r := reaggregate_with_aliases labels sVal mVal aliases canonical
    ((h.nextAddr, h.nextAddr + 1),
     ⟨(h.nextAddr, r.1) :: h.summaries,
      (h.nextAddr + 1, r.2) :: h.mentionLists,
      h.nextAddr + 2⟩)

/-! ## The VK wire client retry loop (`parser.py`, `AsyncVKAPI._call_method`) -/

/-- One `asyncio.sleep` performed inside `_call_method`, recorded
symbolically: exponential backoff of the given attempt
(`base_retry_delay_s * 2**attempt` — for an unexpected content type, a
network error or API error code 6), the quota backoff of the given attempt
(`rate_limit_delay_s + attempt*5`, code 29), or the fixed politeness delay
after a success (`config.DELAY_AFTER_API_CALL_SECONDS`).  `sleepDuration`
interprets the record as its duration in seconds. -/
inductive SleepSpec : Type
  | backoff : Nat → SleepSpec
  | rateLimit : Nat → SleepSpec
  | afterCall : SleepSpec
deriving DecidableEq, Repr

/-- What one attempt of the wire call observes, in the order the code checks
(`parser.py` lines 85-109): a non-JSON content type; a transport error
(`aiohttp.ClientError`, raised by the request itself or by
`raise_for_status`); a response carrying an API-level error object with its
optional `error_code` and `error_msg`; or a successful payload. -/
inductive WireResult : Type
  | nonJson : WireResult
  | netError : WireResult
  | apiError : Option Int → String → WireResult
  | ok : String → WireResult
deriving DecidableEq, Repr

/-- A raised `VKAPIError` (`parser.py` lines 17-29): optional VK error code
plus message. -/
structure VKErr : Type where
  code : Option Int
  msg : String
deriving DecidableEq, Repr

/-- The client configuration read by `_call_method`: `max_retries`,
`base_retry_delay_s`, `rate_limit_delay_s` (`AsyncVKAPI.__init__`), and the
optional `config.DELAY_AFTER_API_CALL_SECONDS` (line 107-108).  Delays are
idealized as rationals. -/
structure RetryCfg : Type where
  maxRetries : Nat
  baseRetryDelay : Rat
  rateLimitDelay : Rat
  delayAfterCall : Option Rat
deriving DecidableEq, Repr

/-- The observable outcome of `_call_method`: the returned payload or raised
`VKAPIError`, the sleeps performed in order, and how many attempts were
started. -/
structure CallOutcome : Type where
  result : Except VKErr String
  sleeps : List SleepSpec
  attemptsMade : Nat
deriving Repr

/-- The loop `for attempt in range(self.max_retries)` of `_call_method`
(`parser.py` lines 83-118), resumed at `attempt` with `fuel` iterations left
and the sleeps performed so far accumulated (in reverse) in `acc`:
* non-JSON content type (lines 86-92): backoff-sleep and retry unless this
  is the last attempt, which raises;
* network error (lines 110-115): raise on the last attempt, else
  backoff-sleep and retry;
* API error code 6 (lines 100-101): backoff-sleep, then raise if this was
  the last attempt (line 105), else retry;
* API error code 29 (lines 102-103): quota-sleep, then raise if this was the
  last attempt, else retry;
* any other API error code (line 104): raise immediately, with no sleep;
* success (lines 107-109): optional politeness sleep, return the payload.
The fuel-0 fall-through is the `raise` after the loop (line 118), reachable
only when `max_retries` is 0. -/
def callFrom (cfg : RetryCfg) (responses : Nat → WireResult) :
    Nat → Nat → List SleepSpec → CallOutcome
  | 0, attempt, acc =>
    ⟨Except.error ⟨none, "Failed to call method after retries"⟩, acc.reverse, attempt⟩
  | fuel + 1, attempt, acc =>
    match responses attempt with
    | WireResult.nonJson =>
      if attempt < cfg.maxRetries - 1 then
        callFrom cfg responses fuel (attempt + 1) (SleepSpec.backoff attempt :: acc)
      else ⟨Except.error ⟨none, "Unexpected Content-Type"⟩, acc.reverse, attempt + 1⟩
    | WireResult.netError =>
      if attempt = cfg.maxRetries - 1 then
        ⟨Except.error ⟨none, "Network error after retries"⟩, acc.reverse, attempt + 1⟩
      else
        callFrom cfg responses fuel (attempt + 1) (SleepSpec.backoff attempt :: acc)
    | WireResult.apiError code msg =>
      if code = some 6 then
        if attempt = cfg.maxRetries - 1 then
          ⟨Except.error ⟨code, msg⟩, (SleepSpec.backoff attempt :: acc).reverse, attempt + 1⟩
        else
          callFrom cfg responses fuel (attempt + 1) (SleepSpec.backoff attempt :: acc)
      else if code = some 29 then
        if attempt = cfg.maxRetries - 1 then
          ⟨Except.error ⟨code, msg⟩, (SleepSpec.rateLimit attempt :: acc).reverse, attempt + 1⟩
        else
          callFrom cfg responses fuel (attempt + 1) (SleepSpec.rateLimit attempt :: acc)
      else ⟨Except.error ⟨code, msg⟩, acc.reverse, attempt + 1⟩
    | WireResult.ok payload =>
      match cfg.delayAfterCall with
      | some _ => ⟨Except.ok payload, (SleepSpec.afterCall :: acc).reverse, attempt + 1⟩
      | none => ⟨Except.ok payload, acc.reverse, attempt + 1⟩

/-- The method `AsyncVKAPI._call_method` as a whole: run the loop from attempt 0. -/
def callMethod (cfg : RetryCfg) (responses : Nat → WireResult) : CallOutcome :=
  callFrom cfg responses cfg.maxRetries 0 []

/-- The duration in seconds of one recorded sleep, per `parser.py` lines 90,
101, 103, 108 and 115. -/
def sleepDuration (cfg : RetryCfg) : SleepSpec → Rat
  | SleepSpec.backoff a => cfg.baseRetryDelay * 2 ^ a
  | SleepSpec.rateLimit a => cfg.rateLimitDelay + (a : Rat) * 5
  | SleepSpec.afterCall => cfg.delayAfterCall.getD 0

/-- Is a recorded sleep an exponential-backoff sleep? -/
def isBackoff : SleepSpec → Bool
  | SleepSpec.backoff _ => true
  | _ => false

/-- The total duration of the exponential-backoff sleeps of an outcome. -/
def backoffTotal (cfg : RetryCfg) (sleeps : List SleepSpec) : Rat :=
  ((sleeps.filter isBackoff).map (sleepDuration cfg)).sum

/-! ## The group write phase and the run totals (`parser.py` 270-366) -/

/-- One collected post (`parser.py` lines 210-213).  The record actually
written wraps this with the group fields and the post's comment list
(lines 293-297), preserving list order and the `date` field; the write-order
claims depend only on those, so the batch is modelled by its posts. -/
structure PostData : Type where
  vk_post_id : Int
  owner_id : Int
  date : Int
  text : String
  comments_api_count : Int
deriving DecidableEq, Repr

/-- The write phase of `VKGroupProcessor.process_and_write_to_file`
(`parser.py` lines 298-311): an empty batch is not written and the saved
count is 0; otherwise the batch is written in `reversed` order, one record
per iteration, incrementing the saved count.  `failAt = some k` models an
`IOError` raised just before the k-th record (0-indexed) of the reversed
batch would be written (`k = 0` covers `open` itself failing); the `except`
branch (lines 307-309) then returns 0, while the records already written
stay appended to the store.  `failAt = none` (or `k ≥` the batch length)
models a write without failure.  Returns (returned saved count, records
appended to the store). -/
def process_and_write_to_file (batch : List PostData) (failAt : Option Nat) :
    Nat × List PostData :=
  if batch.isEmpty then (0, [])
  else
    match failAt with
    | some k =>
      if k < batch.length then (0, batch.reverse.take k)
      else (batch.reverse.length, batch.reverse)
    | none => (batch.reverse.length, batch.reverse)

/-- The totalization over group results in `fetch_vk_data` (`parser.py`
lines 341, 361-364): `asyncio.gather(..., return_exceptions=True)` yields,
per group in launch order, either the group's saved count or its captured
exception; the loop adds the integer results and only logs the
exceptions. -/
def total_posts_saved_overall (results : List (Except String Nat)) : Nat :=
  results.foldl
    (fun acc r => match r with | Except.ok n => acc + n | Except.error _ => acc) 0

/-- The observable outcome of `fetch_vk_data` (`parser.py` lines 313-366):
`returnedValue` is what the function returns — the output-file path alone
(line 366) — while `totalLogged` is the final value of the local counter
`total_posts_saved_overall`, which is printed (line 365) but not
returned. -/
structure FetchOutcome : Type where
  returnedValue : String
  totalLogged : Nat
deriving DecidableEq, Repr

/-- The coordinator `fetch_vk_data` reduced to its result-assembly step, given the per-group
outcomes collected by `asyncio.gather`. -/
def fetch_vk_data (outputFile : String) (results : List (Except String Nat)) :
    FetchOutcome :=
  ⟨outputFile, total_posts_saved_overall results⟩

/-! ## Dictionary lemmas -/

@[simp] theorem alookup_nil {α : Type} (k : String) : alookup (α := α) k [] = none := rfl

theorem alookup_aset_self {α : Type} (k : String) (v : α) (m : List (String × α)) :
    alookup k (aset k v m) = some v := by
  induction m with
  | nil => simp [alookup, aset]
  | cons p rest ih =>
    by_cases h : p.1 = k
    · simp [aset, alookup, h]
    · simp [aset, alookup, h, ih]

theorem alookup_aset_ne {α : Type} {k k' : String} (h : k' ≠ k) (v : α)
    (m : List (String × α)) : alookup k (aset k' v m) = alookup k m := by
  induction m with
  | nil => simp [alookup, aset, h]
  | cons p rest ih =>
    obtain ⟨k0, v0⟩ := p
    by_cases hp : k0 = k'
    · subst hp
      simp [aset, alookup, h]
    · simp [aset, alookup, hp, ih]

theorem alookup_aerase_self {α : Type} (k : String) (m : List (String × α)) :
    alookup k (aerase k m) = none := by
  induction m with
  | nil => simp [aerase]
  | cons p rest ih =>
    obtain ⟨k0, v0⟩ := p
    by_cases h : k0 = k
    · simpa [aerase, h] using ih
    · simpa [aerase, alookup, h] using ih

theorem alookup_aerase_ne {α : Type} {k k' : String} (h : k' ≠ k)
    (m : List (String × α)) : alookup k (aerase k' m) = alookup k m := by
  induction m with
  | nil => simp [aerase]
  | cons p rest ih =>
    obtain ⟨k0, v0⟩ := p
    by_cases hp : k0 = k'
    · subst hp
      simpa [aerase, alookup, h] using ih
    · by_cases hpk : k0 = k
      · subst hpk
        simp [aerase, alookup, hp, h.symm]
      · simpa [aerase, alookup, hp, hpk] using ih

@[simp] theorem sumBy_nil {α : Type} (f : α → Int) : sumBy f [] = 0 := rfl

theorem sumBy_cons {α : Type} (f : α → Int) (p : String × α) (m : List (String × α)) :
    sumBy f (p :: m) = f p.2 + sumBy f m := by
  simp [sumBy]

/-- How `aset` changes a weighted sum: the first occurrence of `k` (weight
`f ((alookup k m).getD d)`, with `f d = 0` covering absence) is replaced by
weight `f v`. -/
theorem sumBy_aset {α : Type} (f : α → Int) (d : α) (hd : f d = 0)
    (k : String) (v : α) (m : List (String × α)) :
    sumBy f (aset k v m) = sumBy f m - f ((alookup k m).getD d) + f v := by
  induction m with
  | nil => simp [aset, sumBy, hd]
  | cons p rest ih =>
    by_cases h : p.1 = k
    · simp [aset, alookup, h, sumBy_cons]
      ring
    · simp [aset, alookup, h, sumBy_cons, ih]
      ring

/-! ## Sum lemmas for the alias merge -/

theorem mem_aset {α : Type} {p : String × α} {k : String} {v : α}
    {m : List (String × α)} (h : p ∈ aset k v m) : p = (k, v) ∨ p ∈ m := by
  induction m with
  | nil => simpa [aset] using h
  | cons q rest ih =>
    by_cases hq : q.1 = k
    · simp only [aset, if_pos hq] at h
      rcases List.mem_cons.1 h with h' | h'
      · exact Or.inl h'
      · exact Or.inr (List.mem_cons_of_mem _ h')
    · simp only [aset, if_neg hq] at h
      rcases List.mem_cons.1 h with h' | h'
      · exact Or.inr (h' ▸ List.mem_cons_self _ _)
      · rcases ih h' with h'' | h''
        · exact Or.inl h''
        · exact Or.inr (List.mem_cons_of_mem _ h'')

theorem sumCM_of_zeros {m : CountMap} (h : ∀ p ∈ m, p.2 = (0 : Int)) :
    sumCM m = 0 := by
  induction m with
  | nil => rfl
  | cons p rest ih =>
    have hp := h p (List.mem_cons_self _ _)
    have hr := ih (fun q hq => h q (List.mem_cons_of_mem _ hq))
    simp [sumCM, sumBy_cons, hp]
    simpa [sumCM] using hr

/-- Every value seeded by `initCounts` is zero. -/
theorem initCounts_zeros (labels : List String) :
    ∀ p ∈ initCounts labels, p.2 = (0 : Int) := by
  have aux : ∀ (ls : List String) (m : CountMap), (∀ p ∈ m, p.2 = (0 : Int)) →
      ∀ p ∈ ls.foldl (fun m l => aset l 0 m) m, p.2 = (0 : Int) := by
    intro ls
    induction ls with
    | nil => intro m hm; simpa using hm
    | cons l rest ih =>
      intro m hm
      simp only [List.foldl_cons]
      refine ih (aset l 0 m) ?_
      intro p hp
      rcases mem_aset hp with h | h
      · simp [h]
      · exact hm p h
  intro p hp
  rcases mem_aset hp with h | h
  · simp [h]
  · exact aux labels [] (by simp) p h

theorem sumCM_initCounts (labels : List String) : sumCM (initCounts labels) = 0 :=
  sumCM_of_zeros (initCounts_zeros labels)

theorem sumCM_nil : sumCM [] = 0 := rfl

theorem sumCM_cons (p : String × Int) (m : CountMap) :
    sumCM (p :: m) = p.2 + sumCM m := by
  simp [sumCM, sumBy_cons]

theorem sumDM_nil : sumDM [] = 0 := rfl

theorem sumDM_cons (p : String × CountMap) (m : DateMap) :
    sumDM (p :: m) = sumCM p.2 + sumDM m := by
  simp [sumDM, sumBy_cons]

theorem sumCM_aset (k : String) (v : Int) (m : CountMap) :
    sumCM (aset k v m) = sumCM m - (alookup k m).getD 0 + v := by
  simpa [sumCM] using sumBy_aset (α := Int) id 0 rfl k v m

theorem sumDM_aset (k : String) (v : CountMap) (m : DateMap) :
    sumDM (aset k v m) = sumDM m - sumCM ((alookup k m).getD []) + sumCM v := by
  simpa [sumDM] using sumBy_aset (α := CountMap) sumCM [] rfl k v m

/-- Adding all pairs of `counts` into a cell increases its sum by exactly
`sumCM counts` (the inner loop of `mergeDate`). -/
theorem sumCM_addInto (counts : CountMap) :
    ∀ cur : CountMap,
      sumCM (List.foldl (fun cell p => aset p.1 ((alookup p.1 cell).getD 0 + p.2) cell)
          cur counts)
        = sumCM cur + sumCM counts := by
  induction counts with
  | nil => intro cur; simp [sumCM_nil]
  | cons p rest ih =>
    intro cur
    rw [List.foldl_cons, ih, sumCM_aset, sumCM_cons]
    ring

theorem sumDM_mergeDate (labels : List String) (dk : String) (counts : CountMap)
    (cd : DateMap) : sumDM (mergeDate labels dk counts cd) = sumDM cd + sumCM counts := by
  cases h : alookup dk cd with
  | none =>
    simp only [mergeDate, h]
    rw [sumDM_aset, h, sumCM_addInto, sumCM_initCounts]
    simp [sumCM_nil]
  | some c =>
    simp only [mergeDate, h]
    rw [sumDM_aset, h, sumCM_addInto]
    simp only [Option.getD_some]
    ring

theorem sumDM_foldl_mergeDate (labels : List String) (ds : DateMap) :
    ∀ cd : DateMap,
      sumDM (List.foldl (fun cd p => mergeDate labels p.1 p.2 cd) cd ds)
        = sumDM cd + sumDM ds := by
  induction ds with
  | nil => intro cd; simp [sumDM_nil]
  | cons p rest ih =>
    intro cd
    rw [List.foldl_cons, ih, sumDM_mergeDate, sumDM_cons]
    ring

/-! ## Behaviour of `mergeAlias` on the summary -/

/-- Merging one alias (distinct from the canonical name) adds the alias's
total into the canonical entity's total; an absent alias contributes its
`summary.get(alias, {})` total of zero. -/
theorem sumDM_mergeAlias (labels : List String) {C A : String} (hAC : A ≠ C)
    (s : Summary) :
    sumDM (getDates (mergeAlias labels C s A) C)
      = sumDM (getDates s C) + sumDM (getDates s A) := by
  cases h : alookup A s with
  | none => simp [mergeAlias, if_neg hAC, getDates, h, sumDM_nil]
  | some ds =>
    have hA : getDates s A = ds := by simp [getDates, h]
    have hG : ∀ X : DateMap, getDates (aerase A (aset C X s)) C = X := by
      intro X
      unfold getDates
      rw [alookup_aerase_ne hAC, alookup_aset_self, Option.getD_some]
    simp only [mergeAlias, if_neg hAC, h]
    rw [hG, sumDM_foldl_mergeDate, hA]

/-- After merging alias `A ≠ C`, `A` is no longer a key of the summary. -/
theorem alookup_mergeAlias_self (labels : List String) {C A : String} (hAC : A ≠ C)
    (s : Summary) : alookup A (mergeAlias labels C s A) = none := by
  cases h : alookup A s with
  | none => simp [mergeAlias, if_neg hAC, h]
  | some ds =>
    simp only [mergeAlias, if_neg hAC, h]
    exact alookup_aerase_self A _

/-- Merging alias `A` touches no key other than `A` and `C`. -/
theorem alookup_mergeAlias_other (labels : List String) {C A B : String}
    (hBA : B ≠ A) (hBC : B ≠ C) (s : Summary) :
    alookup B (mergeAlias labels C s A) = alookup B s := by
  by_cases hAC : A = C
  · simp [mergeAlias, if_pos hAC]
  · cases h : alookup A s with
    | none => simp [mergeAlias, if_neg hAC, h]
    | some ds =>
      simp only [mergeAlias, if_neg hAC, h]
      rw [alookup_aerase_ne (Ne.symm hBA), alookup_aset_ne (Ne.symm hBC)]

/-- The `if key not in d: d[key] = v` idiom: afterwards the key maps to its
old value, or to `v` when it was absent. -/
theorem alookup_ensure_self {α : Type} (S : List (String × α)) {v : α} (C : String) :
    alookup C (if (alookup C S).isSome then S else aset C v S)
      = some ((alookup C S).getD v) := by
  cases h : alookup C S with
  | none => simp [h, alookup_aset_self]
  | some d => simp [h]

/-- The `if key not in d: d[key] = v` idiom does not change any other key. -/
theorem alookup_ensure_ne {α : Type} (S : List (String × α)) {v : α} {C B : String}
    (hBC : B ≠ C) :
    alookup B (if (alookup C S).isSome then S else aset C v S) = alookup B S := by
  cases h : alookup C S with
  | none => simp [h, alookup_aset_ne (Ne.symm hBC)]
  | some d => simp [h]

/-- Ensuring the canonical bucket exists (`app_logic.py` lines 158-159) does
not change `summary.get(C, {})`. -/
theorem getDates_ensure (S : Summary) (C : String) :
    getDates (if (alookup C S).isSome then S else aset C ([] : DateMap) S) C
      = getDates S C := by
  unfold getDates
  rw [alookup_ensure_self]
  cases alookup C S <;> simp

/-! ## Claims C1 and C5 -/

/-- C1 (amended): for a canonical name that is non-empty after stripping
whitespace and pairwise-distinct `A1`, `A2`, `C`,
`reaggregate_with_aliases(S, M, [A1, A2], C)` conserves totals — the sum of
all counts under `C` in the new summary equals the sum of all counts under
`A1`, `A2` and `C` in `S` — and `A1`, `A2` no longer appear as keys of the
new summary. -/
theorem reaggregate_conserves_totals (labels : List String) (S : Summary)
    (M : List Mention) (A1 A2 C : String)
    (hC : pyStripEmpty C = false) (h12 : A1 ≠ A2) (h1C : A1 ≠ C) (h2C : A2 ≠ C) :
    sumDM (getDates (reaggregate_with_aliases labels S M [A1, A2] C).1 C)
        = sumDM (getDates S A1) + sumDM (getDates S A2) + sumDM (getDates S C)
      ∧ alookup A1 (reaggregate_with_aliases labels S M [A1, A2] C).1 = none
      ∧ alookup A2 (reaggregate_with_aliases labels S M [A1, A2] C).1 = none := by
  have hfst : (reaggregate_with_aliases labels S M [A1, A2] C).1
      = mergeAlias labels C (mergeAlias labels C
          (if (alookup C S).isSome then S else aset C ([] : DateMap) S) A1) A2 := by
    simp [reaggregate_with_aliases, hC]
  refine ⟨?_, ?_, ?_⟩
  · rw [hfst, sumDM_mergeAlias labels h2C, sumDM_mergeAlias labels h1C]
    have h2 : getDates (mergeAlias labels C
        (if (alookup C S).isSome then S else aset C ([] : DateMap) S) A1) A2
        = getDates S A2 := by
      unfold getDates
      rw [alookup_mergeAlias_other labels (Ne.symm h12) h2C, alookup_ensure_ne S h2C]
    have h1 : getDates (if (alookup C S).isSome then S else aset C ([] : DateMap) S) A1
        = getDates S A1 := by
      unfold getDates
      rw [alookup_ensure_ne S h1C]
    rw [h2, h1, getDates_ensure]
    ring
  · rw [hfst, alookup_mergeAlias_other labels h12 h1C, alookup_mergeAlias_self labels h1C]
  · rw [hfst, alookup_mergeAlias_self labels h2C]

/-- Witness for `reaggregate_conserves_totals` at a concrete input. -/
theorem reaggregate_conserves_totals_witness :
    pyStripEmpty "C" = false ∧ ("A1" : String) ≠ "A2" ∧ ("A1" : String) ≠ "C"
      ∧ ("A2" : String) ≠ "C"
      ∧ (sumDM (getDates (reaggregate_with_aliases ["P"]
            [("A1", [("d", [("P", 2)])]), ("C", [("d", [("P", 3)])])]
            [] ["A1", "A2"] "C").1 "C")
          = sumDM (getDates [("A1", [("d", [("P", (2:Int))])]),
              ("C", [("d", [("P", (3:Int))])])] "A1")
            + sumDM (getDates [("A1", [("d", [("P", (2:Int))])]),
                ("C", [("d", [("P", (3:Int))])])] "A2")
            + sumDM (getDates [("A1", [("d", [("P", (2:Int))])]),
                ("C", [("d", [("P", (3:Int))])])] "C")
        ∧ alookup "A1" (reaggregate_with_aliases ["P"]
            [("A1", [("d", [("P", 2)])]), ("C", [("d", [("P", 3)])])]
            [] ["A1", "A2"] "C").1 = none
        ∧ alookup "A2" (reaggregate_with_aliases ["P"]
            [("A1", [("d", [("P", 2)])]), ("C", [("d", [("P", 3)])])]
            [] ["A1", "A2"] "C").1 = none) :=
  ⟨by decide, by decide, by decide, by decide,
    reaggregate_conserves_totals ["P"]
      [("A1", [("d", [("P", 2)])]), ("C", [("d", [("P", 3)])])]
      [] "A1" "A2" "C" (by decide) (by decide) (by decide) (by decide)⟩

/-- Counterexample to C1 as stated: `" "` is a non-empty canonical name, but
the merge is a no-op on it (the code tests `canonical_name.strip()`), so with
`S = {"A1": {"d": {"P": 1}}}` the total under the canonical name stays `0 ≠ 1`
and `"A1"` remains a key of the summary. -/
theorem reaggregate_conserves_totals_counterexample :
    ¬ (sumDM (getDates (reaggregate_with_aliases ["P"]
            [("A1", [("d", [("P", 1)])])] [] ["A1", "A2"] " ").1 " ")
          = sumDM (getDates [("A1", [("d", [("P", (1:Int))])])] "A1")
            + sumDM (getDates [("A1", [("d", [("P", (1:Int))])])] "A2")
            + sumDM (getDates [("A1", [("d", [("P", (1:Int))])])] " ")
        ∧ alookup "A1" (reaggregate_with_aliases ["P"]
            [("A1", [("d", [("P", 1)])])] [] ["A1", "A2"] " ").1 = none
        ∧ alookup "A2" (reaggregate_with_aliases ["P"]
            [("A1", [("d", [("P", 1)])])] [] ["A1", "A2"] " ").1 = none) := by
  decide

/-- C5: calling `reaggregate_with_aliases` with an empty or whitespace-only
canonical name is the identity — it returns the pair `(S, M)` itself, so the
returned collections are structurally equal to the inputs. -/
theorem reaggregate_blank_canonical_identity (labels : List String) (S : Summary)
    (M : List Mention) (aliases : List String) (canonical : String)
    (h : pyStripEmpty canonical = true) :
    reaggregate_with_aliases labels S M aliases canonical = (S, M) := by
  simp [reaggregate_with_aliases, h]

/-- Witness for `reaggregate_blank_canonical_identity` at a concrete input. -/
theorem reaggregate_blank_canonical_identity_witness :
    pyStripEmpty " " = true
      ∧ reaggregate_with_aliases ["P"] [("A", [("d", [("P", 5)])])]
          [[("entity_normalized", PyVal.vStr "A")]] ["A"] " "
        = ([("A", [("d", [("P", 5)])])], [[("entity_normalized", PyVal.vStr "A")]]) :=
  ⟨by decide,
    reaggregate_blank_canonical_identity ["P"] [("A", [("d", [("P", 5)])])]
      [[("entity_normalized", PyVal.vStr "A")]] ["A"] " " (by decide)⟩

/-! ## The aggregation count invariant (claim C4) -/

theorem alookup_mk_entity_normalized (e : String) (eo : Option String) (p dk : String)
    (ts : Int) (meta : Meta) :
    alookup "entity_normalized" (mkMention e eo p dk ts meta) = some (PyVal.vStr e) := rfl

theorem alookup_mk_date (e : String) (eo : Option String) (p dk : String)
    (ts : Int) (meta : Meta) :
    alookup "date" (mkMention e eo p dk ts meta) = some (PyVal.vStr dk) := rfl

theorem alookup_mk_entity (e : String) (eo : Option String) (p dk : String)
    (ts : Int) (meta : Meta) :
    alookup "entity" (mkMention e eo p dk ts meta) = none := rfl

theorem mentionMatches_mk (E D e : String) (eo : Option String) (p dk : String)
    (ts : Int) (meta : Meta) :
    mentionMatches E D (mkMention e eo p dk ts meta)
      = (decide (e = E) && decide (dk = D)) := by
  unfold mentionMatches
  rw [alookup_mk_entity_normalized, alookup_mk_date]
  by_cases h1 : e = E <;> by_cases h2 : dk = D <;> simp [h1, h2]

theorem countMentions_append_mk (ms : List Mention) (E D e : String)
    (eo : Option String) (p dk : String) (ts : Int) (meta : Meta) :
    countMentions (ms ++ [mkMention e eo p dk ts meta]) E D
      = countMentions ms E D + (if e = E ∧ dk = D then 1 else 0) := by
  unfold countMentions
  rw [List.filter_append, List.length_append]
  congr 1
  by_cases h : e = E ∧ dk = D
  · obtain ⟨h1, h2⟩ := h
    simp [mentionMatches_mk, h1, h2]
  · rw [Classical.not_and_iff_or_not_not] at h
    rcases h with h | h <;> simp [mentionMatches_mk, h]

theorem sumCM_bumpCell (p : String) (cell : CountMap) :
    sumCM (bumpCell p cell) = sumCM cell + 1 := by
  unfold bumpCell
  split <;> rw [sumCM_aset] <;> ring

/-- Bumping (entity `e`, date `dk`) raises that cell's sum by exactly 1. -/
theorem sumCM_cellOf_bumpSummary_self (labels : List String) (e dk p : String)
    (s0 : Summary) :
    sumCM (cellOf (bumpSummary labels e dk p s0) e dk)
      = sumCM (cellOf s0 e dk) + 1 := by
  unfold bumpSummary cellOf
  rw [alookup_aset_self, Option.getD_some, alookup_aset_self, Option.getD_some,
    sumCM_bumpCell, alookup_ensure_self, Option.getD_some, alookup_ensure_self,
    Option.getD_some]
  congr 1
  cases h : alookup dk ((alookup e s0).getD []) with
  | none => simp [h, sumCM_initCounts, sumCM_nil]
  | some c => simp [h]

/-- Bumping (entity `e`, date `dk`) leaves every other cell unchanged. -/
theorem cellOf_bumpSummary_other (labels : List String) (e dk p : String)
    (s0 : Summary) (E D : String) (h : ¬(e = E ∧ dk = D)) :
    cellOf (bumpSummary labels e dk p s0) E D = cellOf s0 E D := by
  unfold bumpSummary cellOf
  by_cases hE : E = e
  · subst hE
    have hD : dk ≠ D := by tauto
    rw [alookup_aset_self, Option.getD_some, alookup_aset_ne hD,
      alookup_ensure_ne _ (Ne.symm hD), alookup_ensure_self, Option.getD_some]
  · rw [alookup_aset_ne (Ne.symm hE), alookup_ensure_ne _ hE]

/-- The per-(entity, date) count invariant is preserved by processing one
opinion. -/
theorem cell_count_processOpinion (labels : List String) (dk : String) (ts : Int)
    (meta : Meta) (st : Summary × List Mention) (op : Opinion)
    (h : ∀ E D, sumCM (cellOf st.1 E D) = (countMentions st.2 E D : Int)) :
    ∀ E D, sumCM (cellOf (processOpinion labels dk ts meta st op).1 E D)
      = (countMentions (processOpinion labels dk ts meta st op).2 E D : Int) := by
  intro E D
  cases he : op.entity with
  | none => simp only [processOpinion, he]; exact h E D
  | some e =>
    cases hp : op.polarity with
    | none => simp only [processOpinion, he, hp]; exact h E D
    | some p =>
      by_cases hep : e = "" ∨ p = ""
      · simp only [processOpinion, he, hp, if_pos hep]; exact h E D
      · simp only [processOpinion, he, hp, if_neg hep]
        rw [countMentions_append_mk]
        by_cases hED : e = E ∧ dk = D
        · obtain ⟨h1, h2⟩ := hED
          subst h1; subst h2
          rw [sumCM_cellOf_bumpSummary_self, h, if_pos ⟨rfl, rfl⟩]
          push_cast
          ring
        · rw [cellOf_bumpSummary_other labels e dk p st.1 E D hED, h, if_neg hED]
          simp

/-- The invariant is preserved by a whole opinion list. -/
theorem cell_count_foldl_opinions (labels : List String) (dk : String) (ts : Int)
    (meta : Meta) (ops : List Opinion) :
    ∀ st : Summary × List Mention,
      (∀ E D, sumCM (cellOf st.1 E D) = (countMentions st.2 E D : Int)) →
      ∀ E D, sumCM (cellOf (ops.foldl (processOpinion labels dk ts meta) st).1 E D)
        = (countMentions (ops.foldl (processOpinion labels dk ts meta) st).2 E D : Int) := by
  induction ops with
  | nil => intro st h; exact h
  | cons op rest ih =>
    intro st h
    exact ih _ (cell_count_processOpinion labels dk ts meta st op h)

/-- The invariant is preserved by one (text, metadata) pair. -/
theorem cell_count_processText (labels : List String) (pair : List Opinion × Meta)
    (st : Summary × List Mention)
    (h : ∀ E D, sumCM (cellOf st.1 E D) = (countMentions st.2 E D : Int)) :
    ∀ E D, sumCM (cellOf (processText labels st pair).1 E D)
      = (countMentions (processText labels st pair).2 E D : Int) := by
  cases hts : pair.2.date_timestamp with
  | none => simp only [processText, hts]; exact h
  | some ts =>
    cases hdk : dateKeyOfTs ts with
    | none => simp only [processText, hts, hdk]; exact h
    | some dk =>
      simp only [processText, hts, hdk]
      exact cell_count_foldl_opinions labels dk ts pair.2 pair.1 st h

/-- The invariant is preserved by any list of (text, metadata) pairs. -/
theorem cell_count_foldl_texts (labels : List String)
    (pairs : List (List Opinion × Meta)) :
    ∀ st : Summary × List Mention,
      (∀ E D, sumCM (cellOf st.1 E D) = (countMentions st.2 E D : Int)) →
      ∀ E D, sumCM (cellOf (pairs.foldl (processText labels) st).1 E D)
        = (countMentions (pairs.foldl (processText labels) st).2 E D : Int) := by
  induction pairs with
  | nil => intro st h; exact h
  | cons pr rest ih =>
    intro st h
    exact ih _ (cell_count_processText labels pr st h)

/-- C4 core: after aggregation, the sum of the sentiment counts of every
summary cell equals the number of mention records with that entity and
date. -/
theorem aggregate_cell_counts (labels : List String) (nlp : List (List Opinion))
    (metas : List Meta) :
    ∀ E D, sumCM (cellOf (aggregate_nlp_results labels nlp metas).1 E D)
      = (countMentions (aggregate_nlp_results labels nlp metas).2 E D : Int) := by
  unfold aggregate_nlp_results
  refine cell_count_foldl_texts labels (nlp.zip metas) ([], []) ?_
  intro E D
  simp [cellOf, countMentions, sumCM_nil]

/-- C4: for every judgments list and metadata list given to aggregation, and
every entity `E` and date `D` present in the returned summary, the sum of the
sentiment counts in `summary[E][D]` equals the number of mention records with
`entity_normalized == E` and `date == D`.  (The equality in fact holds for
all `E`, `D`, with absent cells read as empty: `aggregate_cell_counts`.) -/
theorem aggregate_summary_counts_match_mentions (labels : List String)
    (nlp : List (List Opinion)) (metas : List Meta) (E D : String)
    (hE : (alookup E (aggregate_nlp_results labels nlp metas).1).isSome = true)
    (hD : (alookup D ((alookup E
        (aggregate_nlp_results labels nlp metas).1).getD [])).isSome = true) :
    sumCM (cellOf (aggregate_nlp_results labels nlp metas).1 E D)
      = (countMentions (aggregate_nlp_results labels nlp metas).2 E D : Int) :=
  aggregate_cell_counts labels nlp metas E D

/-- Witness for `aggregate_summary_counts_match_mentions` at a concrete
input: one text with two opinions on entity `"A"` (one with an unknown
label) and one with an empty entity (skipped). -/
theorem aggregate_summary_counts_match_mentions_witness :
    (alookup "A" (aggregate_nlp_results ["P"]
        [[⟨some "A", some "a", some "P"⟩, ⟨some "A", none, some "X"⟩, ⟨some "", none, some "P"⟩]]
        [⟨some 0, PyVal.vStr "post", PyVal.vInt 1, PyVal.vNone, PyVal.vStr "g", PyVal.vNone⟩]).1).isSome
        = true
      ∧ (alookup "1970-01-01" ((alookup "A" (aggregate_nlp_results ["P"]
        [[⟨some "A", some "a", some "P"⟩, ⟨some "A", none, some "X"⟩, ⟨some "", none, some "P"⟩]]
        [⟨some 0, PyVal.vStr "post", PyVal.vInt 1, PyVal.vNone, PyVal.vStr "g", PyVal.vNone⟩]).1).getD [])).isSome
        = true
      ∧ sumCM (cellOf (aggregate_nlp_results ["P"]
        [[⟨some "A", some "a", some "P"⟩, ⟨some "A", none, some "X"⟩, ⟨some "", none, some "P"⟩]]
        [⟨some 0, PyVal.vStr "post", PyVal.vInt 1, PyVal.vNone, PyVal.vStr "g", PyVal.vNone⟩]).1
          "A" "1970-01-01")
        = (countMentions (aggregate_nlp_results ["P"]
        [[⟨some "A", some "a", some "P"⟩, ⟨some "A", none, some "X"⟩, ⟨some "", none, some "P"⟩]]
        [⟨some 0, PyVal.vStr "post", PyVal.vInt 1, PyVal.vNone, PyVal.vStr "g", PyVal.vNone⟩]).2
          "A" "1970-01-01" : Int) :=
  ⟨by decide, by decide,
    aggregate_summary_counts_match_mentions ["P"]
      [[⟨some "A", some "a", some "P"⟩, ⟨some "A", none, some "X"⟩, ⟨some "", none, some "P"⟩]]
      [⟨some 0, PyVal.vStr "post", PyVal.vInt 1, PyVal.vNone, PyVal.vStr "g", PyVal.vNone⟩]
      "A" "1970-01-01" (by decide) (by decide)⟩

/-! ## Claim C2: the merge never rewrites mention records -/

theorem rewriteMention_no_entity_key (aliases : List String) (canonical : String)
    (m : Mention) (h : alookup "entity" m = none) :
    rewriteMention aliases canonical m = m := by
  simp [rewriteMention, h]

/-- C2 (code bug): the merge loop tests `mention.get("entity")`, but mention
records produced by aggregation carry the key `entity_normalized` and no
`entity` key, so the test always sees `None` and no mention record is ever
rewritten — `reaggregate_with_aliases` returns the mention list exactly as
given, contradicting the claimed rewrite of matching records to the
canonical name. -/
theorem reaggregate_never_rewrites_mentions (labels : List String) (S : Summary)
    (ms : List Mention) (aliases : List String) (canonical : String)
    (h : ∀ m ∈ ms, alookup "entity" m = none) :
    (reaggregate_with_aliases labels S ms aliases canonical).2 = ms := by
  have hmap : ms.map (rewriteMention aliases canonical) = ms := by
    have hcg := List.map_congr_left (l := ms) (f := rewriteMention aliases canonical)
      (g := id) (fun m hm => rewriteMention_no_entity_key aliases canonical m (h m hm))
    simpa using hcg
  unfold reaggregate_with_aliases
  split
  · rfl
  · simpa using hmap

/-- Witness for `reaggregate_never_rewrites_mentions` at the failing input of
the claim: a mention with `entity_normalized = "A"` survives the merge of
alias `"A"` into canonical `"B"` completely unchanged. -/
theorem reaggregate_never_rewrites_mentions_witness :
    (∀ m ∈ [mkMention "A" (some "A") "P" "1970-01-01" 0
        ⟨some 0, PyVal.vNone, PyVal.vNone, PyVal.vNone, PyVal.vNone, PyVal.vNone⟩],
      alookup "entity" m = none)
      ∧ (reaggregate_with_aliases ["P"]
          [("A", [("1970-01-01", [("P", 1), ("UNKNOWN", 0)])])]
          [mkMention "A" (some "A") "P" "1970-01-01" 0
            ⟨some 0, PyVal.vNone, PyVal.vNone, PyVal.vNone, PyVal.vNone, PyVal.vNone⟩]
          ["A"] "B").2
        = [mkMention "A" (some "A") "P" "1970-01-01" 0
            ⟨some 0, PyVal.vNone, PyVal.vNone, PyVal.vNone, PyVal.vNone, PyVal.vNone⟩] :=
  ⟨by decide,
    reaggregate_never_rewrites_mentions ["P"]
      [("A", [("1970-01-01", [("P", 1), ("UNKNOWN", 0)])])]
      [mkMention "A" (some "A") "P" "1970-01-01" 0
        ⟨some 0, PyVal.vNone, PyVal.vNone, PyVal.vNone, PyVal.vNone, PyVal.vNone⟩]
      ["A"] "B" (by decide)⟩

/-! ## Claims C6 and C7: the wire client's retry policy -/

/-- C6: when an attempt's response carries an API-level error object whose
code is neither 6 nor 29, `_call_method` raises a `VKAPIError` with that
code and message on that same attempt: no sleep is added and no further
attempt is started (`attemptsMade = attempt + 1`), even though `fuel + 1 ≥ 1`
iterations of retry budget remained. -/
theorem call_fatal_on_unknown_code (cfg : RetryCfg) (responses : Nat → WireResult)
    (fuel attempt : Nat) (acc : List SleepSpec) (c : Option Int) (m : String)
    (hresp : responses attempt = WireResult.apiError c m)
    (h6 : c ≠ some 6) (h29 : c ≠ some 29) :
    callFrom cfg responses (fuel + 1) attempt acc
      = ⟨Except.error ⟨c, m⟩, acc.reverse, attempt + 1⟩ := by
  simp [callFrom, hresp, h6, h29]

/-- Witness for `call_fatal_on_unknown_code`: error code 15 on the first
attempt of a client with `max_retries = 3` fails immediately with no sleep
and exactly one attempt. -/
theorem call_fatal_on_unknown_code_witness :
    (fun _ : Nat => WireResult.apiError (some 15) "Access denied") 0
        = WireResult.apiError (some 15) "Access denied"
      ∧ (some (15 : Int) ≠ some 6) ∧ (some (15 : Int) ≠ some 29)
      ∧ callFrom ⟨3, 1, 10, none⟩
          (fun _ => WireResult.apiError (some 15) "Access denied") 3 0 []
        = ⟨Except.error ⟨some 15, "Access denied"⟩, [], 1⟩ :=
  ⟨rfl, by decide, by decide,
    call_fatal_on_unknown_code ⟨3, 1, 10, none⟩
      (fun _ => WireResult.apiError (some 15) "Access denied") 2 0 []
      (some 15) "Access denied" rfl (by decide) (by decide)⟩

/-- C7: with `max_retries ≥ 3` and responses failing with API error code 6
on attempts 0 and 1 and succeeding on attempt 2, `_call_method` returns the
successful payload and the total backoff slept across the failed attempts is
`base_retry_delay_s * (2^0 + 2^1)`. -/
theorem call_succeeds_after_two_code6 (cfg : RetryCfg) (responses : Nat → WireResult)
    (m0 m1 p : String) (hR : 3 ≤ cfg.maxRetries)
    (h0 : responses 0 = WireResult.apiError (some 6) m0)
    (h1 : responses 1 = WireResult.apiError (some 6) m1)
    (h2 : responses 2 = WireResult.ok p) :
    (callMethod cfg responses).result = Except.ok p
      ∧ backoffTotal cfg (callMethod cfg responses).sleeps
        = cfg.baseRetryDelay * (2 ^ 0 + 2 ^ 1) := by
  obtain ⟨k, hk⟩ : ∃ k, cfg.maxRetries = k + 3 := ⟨cfg.maxRetries - 3, by omega⟩
  have hs : callMethod cfg responses = callFrom cfg responses (k + 3) 0 [] := by
    rw [callMethod, hk]
  have hne0 : ¬(0 = cfg.maxRetries - 1) := by omega
  have hne1 : ¬(1 = cfg.maxRetries - 1) := by omega
  have st0 : callFrom cfg responses (k + 3) 0 []
      = callFrom cfg responses (k + 2) 1 [SleepSpec.backoff 0] := by
    rw [show k + 3 = (k + 2) + 1 from rfl]
    simp [callFrom, h0, hne0]
  have st1 : callFrom cfg responses (k + 2) 1 [SleepSpec.backoff 0]
      = callFrom cfg responses (k + 1) 2 [SleepSpec.backoff 1, SleepSpec.backoff 0] := by
    rw [show k + 2 = (k + 1) + 1 from rfl]
    simp [callFrom, h1, hne1]
  rw [hs, st0, st1]
  cases hd : cfg.delayAfterCall with
  | none =>
    have st2 : callFrom cfg responses (k + 1) 2 [SleepSpec.backoff 1, SleepSpec.backoff 0]
        = ⟨Except.ok p, [SleepSpec.backoff 0, SleepSpec.backoff 1], 3⟩ := by
      simp [callFrom, h2, hd]
    rw [st2]
    refine ⟨rfl, ?_⟩
    simp [backoffTotal, isBackoff, sleepDuration]
    ring
  | some d =>
    have st2 : callFrom cfg responses (k + 1) 2 [SleepSpec.backoff 1, SleepSpec.backoff 0]
        = ⟨Except.ok p, [SleepSpec.backoff 0, SleepSpec.backoff 1, SleepSpec.afterCall], 3⟩ := by
      simp [callFrom, h2, hd]
    rw [st2]
    refine ⟨rfl, ?_⟩
    simp [backoffTotal, isBackoff, sleepDuration]
    ring

/-- Witness for `call_succeeds_after_two_code6` with `max_retries = 3`,
`base_retry_delay_s = 1`. -/
theorem call_succeeds_after_two_code6_witness :
    3 ≤ (⟨3, 1, 10, none⟩ : RetryCfg).maxRetries
      ∧ (fun n : Nat => if n ≤ 1 then WireResult.apiError (some 6) "flood"
          else WireResult.ok "payload") 0 = WireResult.apiError (some 6) "flood"
      ∧ (fun n : Nat => if n ≤ 1 then WireResult.apiError (some 6) "flood"
          else WireResult.ok "payload") 1 = WireResult.apiError (some 6) "flood"
      ∧ (fun n : Nat => if n ≤ 1 then WireResult.apiError (some 6) "flood"
          else WireResult.ok "payload") 2 = WireResult.ok "payload"
      ∧ ((callMethod ⟨3, 1, 10, none⟩
            (fun n => if n ≤ 1 then WireResult.apiError (some 6) "flood"
              else WireResult.ok "payload")).result = Except.ok "payload"
        ∧ backoffTotal ⟨3, 1, 10, none⟩
            (callMethod ⟨3, 1, 10, none⟩
              (fun n => if n ≤ 1 then WireResult.apiError (some 6) "flood"
                else WireResult.ok "payload")).sleeps
          = (⟨3, 1, 10, none⟩ : RetryCfg).baseRetryDelay * (2 ^ 0 + 2 ^ 1)) :=
  ⟨by decide, rfl, rfl, rfl,
    call_succeeds_after_two_code6 ⟨3, 1, 10, none⟩
      (fun n => if n ≤ 1 then WireResult.apiError (some 6) "flood"
        else WireResult.ok "payload")
      "flood" "flood" "payload" (by decide) rfl rfl rfl⟩

/-! ## Claims C8 and C10: the group write phase -/

/-- C8: when the collected batch of a group is ordered newest-first (dates
non-increasing, as returned by the API), the records persisted for that
group are exactly the batch reversed once, and they are in ascending
timestamp order. -/
theorem written_records_chronological (batch : List PostData)
    (hdesc : List.Pairwise (fun a b => b.date ≤ a.date) batch) :
    (process_and_write_to_file batch none).2 = batch.reverse
      ∧ List.Pairwise (fun a b => a.date ≤ b.date)
          (process_and_write_to_file batch none).2 := by
  have h2 : (process_and_write_to_file batch none).2 = batch.reverse := by
    unfold process_and_write_to_file
    cases batch <;> simp
  refine ⟨h2, ?_⟩
  rw [h2]
  exact List.pairwise_reverse.mpr hdesc

/-- Witness for `written_records_chronological` on a newest-first batch of
three posts. -/
theorem written_records_chronological_witness :
    List.Pairwise (fun a b : PostData => b.date ≤ a.date)
        [⟨1, -5, 30, "a", 0⟩, ⟨2, -5, 20, "b", 0⟩, ⟨3, -5, 10, "c", 0⟩]
      ∧ ((process_and_write_to_file
            [⟨1, -5, 30, "a", 0⟩, ⟨2, -5, 20, "b", 0⟩, ⟨3, -5, 10, "c", 0⟩] none).2
          = ([⟨1, -5, 30, "a", 0⟩, ⟨2, -5, 20, "b", 0⟩, ⟨3, -5, 10, "c", 0⟩]
              : List PostData).reverse
        ∧ List.Pairwise (fun a b : PostData => a.date ≤ b.date)
            (process_and_write_to_file
              [⟨1, -5, 30, "a", 0⟩, ⟨2, -5, 20, "b", 0⟩, ⟨3, -5, 10, "c", 0⟩] none).2) :=
  ⟨by decide,
    written_records_chronological
      [⟨1, -5, 30, "a", 0⟩, ⟨2, -5, 20, "b", 0⟩, ⟨3, -5, 10, "c", 0⟩] (by decide)⟩

/-- C10: an `IOError` raised before the k-th record of the reversed batch is
written makes `process_and_write_to_file` return a saved count of 0, while
the k records already written remain appended to the store (no rollback). -/
theorem write_failure_returns_zero_keeps_partial (batch : List PostData) (k : Nat)
    (hk : k < batch.length) :
    process_and_write_to_file batch (some k) = (0, batch.reverse.take k) := by
  unfold process_and_write_to_file
  have hne : batch.isEmpty = false := by
    cases batch
    · simp at hk
    · simp
  simp [hne, hk]

/-- Witness for `write_failure_returns_zero_keeps_partial`: the failure
after one written record returns 0 while that record stays in the store. -/
theorem write_failure_returns_zero_keeps_partial_witness :
    1 < ([⟨1, -5, 30, "a", 0⟩, ⟨2, -5, 20, "b", 0⟩] : List PostData).length
      ∧ process_and_write_to_file [⟨1, -5, 30, "a", 0⟩, ⟨2, -5, 20, "b", 0⟩] (some 1)
        = (0, [⟨2, -5, 20, "b", 0⟩]) :=
  ⟨by decide,
    write_failure_returns_zero_keeps_partial
      [⟨1, -5, 30, "a", 0⟩, ⟨2, -5, 20, "b", 0⟩] 1 (by decide)⟩

/-! ## Claim C9: what the collection coordinator returns -/

theorem total_posts_saved_foldl (results : List (Except String Nat)) :
    ∀ acc : Nat,
      results.foldl
          (fun acc r => match r with | Except.ok n => acc + n | Except.error _ => acc) acc
        = acc + (results.map
            (fun r => match r with | Except.ok n => n | Except.error _ => 0)).sum := by
  induction results with
  | nil => intro acc; simp
  | cons r rest ih =>
    intro acc
    cases r <;> simp [List.foldl_cons, ih] <;> omega

/-- C9 (amended): `fetch_vk_data` returns only the path of the unified
output store; the total count of records persisted — the sum of the
per-group saved counts with 0 contributed by each group that failed — is
computed and logged, but is not part of the returned value. -/
theorem fetch_returns_path_and_logs_total (outputFile : String)
    (results : List (Except String Nat)) :
    (fetch_vk_data outputFile results).returnedValue = outputFile
      ∧ (fetch_vk_data outputFile results).totalLogged
        = (results.map
            (fun r => match r with | Except.ok n => n | Except.error _ => 0)).sum := by
  refine ⟨rfl, ?_⟩
  unfold fetch_vk_data total_posts_saved_overall
  simpa using total_posts_saved_foldl results 0

/-- Counterexample to C9 as stated: two runs that persist different totals
(1 vs 2 records) return identical values, so the value `fetch_vk_data`
returns cannot carry the total count of records persisted — it is the
output path alone (`parser.py` line 366). -/
theorem fetch_result_does_not_carry_total :
    (fetch_vk_data "vk_parsed_data_temp.jsonl" [Except.ok 1]).returnedValue
        = (fetch_vk_data "vk_parsed_data_temp.jsonl" [Except.ok 2]).returnedValue
      ∧ (fetch_vk_data "vk_parsed_data_temp.jsonl" [Except.ok 1]).totalLogged
        ≠ (fetch_vk_data "vk_parsed_data_temp.jsonl" [Except.ok 2]).totalLogged :=
  ⟨rfl, by decide⟩

/-! ## Claim C3: no mutation of the caller's collections -/

/-- C3 (amended): `reaggregate_with_aliases` never mutates the
caller-supplied collections — after the call the objects at the input
addresses hold exactly their old values — and, whenever the canonical name
is non-blank, the returned collections are fresh objects (their addresses
differ from the inputs' and from every live object's) holding the merged
copies of the inputs' values.  (When the canonical name is blank the inputs
themselves are returned; see the counterexample.) -/
theorem reaggregateHeap_no_mutation_fresh_copies (labels : List String)
    (h : ReaggHeap) (sAddr mAddr : Nat) (aliases : List String) (canonical : String)
    (hs : sAddr < h.nextAddr) (hm : mAddr < h.nextAddr)
    (hwfS : ∀ p ∈ h.summaries, p.1 < h.nextAddr)
    (hwfM : ∀ p ∈ h.mentionLists, p.1 < h.nextAddr) :
    (hlookup sAddr (reaggregateHeap labels h sAddr mAddr aliases canonical).2.summaries
        = hlookup sAddr h.summaries)
      ∧ (hlookup mAddr (reaggregateHeap labels h sAddr mAddr aliases canonical).2.mentionLists
        = hlookup mAddr h.mentionLists)
      ∧ (pyStripEmpty canonical = false →
          (reaggregateHeap labels h sAddr mAddr aliases canonical).1.1 ≠ sAddr
          ∧ (reaggregateHeap labels h sAddr mAddr aliases canonical).1.2 ≠ mAddr
          ∧ (∀ p ∈ h.summaries,
              (reaggregateHeap labels h sAddr mAddr aliases canonical).1.1 ≠ p.1)
          ∧ (∀ p ∈ h.mentionLists,
              (reaggregateHeap labels h sAddr mAddr aliases canonical).1.2 ≠ p.1)
          ∧ hlookup (reaggregateHeap labels h sAddr mAddr aliases canonical).1.1
              (reaggregateHeap labels h sAddr mAddr aliases canonical).2.summaries
            = some (reaggregate_with_aliases labels
                ((hlookup sAddr h.summaries).getD [])
                ((hlookup mAddr h.mentionLists).getD []) aliases canonical).1
          ∧ hlookup (reaggregateHeap labels h sAddr mAddr aliases canonical).1.2
              (reaggregateHeap labels h sAddr mAddr aliases canonical).2.mentionLists
            = some (reaggregate_with_aliases labels
                ((hlookup sAddr h.summaries).getD [])
                ((hlookup mAddr h.mentionLists).getD []) aliases canonical).2) := by
  cases hb : pyStripEmpty canonical with
  | true =>
    refine ⟨by simp [reaggregateHeap, hb], by simp [reaggregateHeap, hb], ?_⟩
    intro hfalse
    simp at hfalse
  | false =>
    have hsne : h.nextAddr ≠ sAddr := by omega
    have hmne : h.nextAddr + 1 ≠ mAddr := by omega
    refine ⟨?_, ?_, fun _ => ⟨?_, ?_, ?_, ?_, ?_, ?_⟩⟩
    · simp [reaggregateHeap, hb, hlookup, hsne]
    · simp [reaggregateHeap, hb, hlookup, hmne]
    · simp [reaggregateHeap, hb]
      omega
    · simp [reaggregateHeap, hb]
      omega
    · intro p hp
      simp only [reaggregateHeap, hb]
      have := hwfS p hp
      simp
      omega
    · intro p hp
      simp only [reaggregateHeap, hb]
      have := hwfM p hp
      simp
      omega
    · simp [reaggregateHeap, hb, hlookup]
    · simp [reaggregateHeap, hb, hlookup]

/-- Witness for `reaggregateHeap_no_mutation_fresh_copies` on a two-object
heap, merging alias `"A"` into canonical `"B"`. -/
theorem reaggregateHeap_no_mutation_fresh_copies_witness :
    (0 < 2) ∧ (1 < 2)
      ∧ (∀ p ∈ [((0 : Nat), ([] : Summary))], p.1 < 2)
      ∧ (∀ p ∈ [((1 : Nat), ([] : List Mention))], p.1 < 2)
      ∧ ((hlookup 0 (reaggregateHeap [] ⟨[(0, [])], [(1, [])], 2⟩ 0 1 ["A"] "B").2.summaries
          = hlookup 0 [((0 : Nat), ([] : Summary))])
        ∧ (hlookup 1 (reaggregateHeap [] ⟨[(0, [])], [(1, [])], 2⟩ 0 1 ["A"] "B").2.mentionLists
          = hlookup 1 [((1 : Nat), ([] : List Mention))])
        ∧ (pyStripEmpty "B" = false →
            (reaggregateHeap [] ⟨[(0, [])], [(1, [])], 2⟩ 0 1 ["A"] "B").1.1 ≠ 0
            ∧ (reaggregateHeap [] ⟨[(0, [])], [(1, [])], 2⟩ 0 1 ["A"] "B").1.2 ≠ 1
            ∧ (∀ p ∈ [((0 : Nat), ([] : Summary))],
                (reaggregateHeap [] ⟨[(0, [])], [(1, [])], 2⟩ 0 1 ["A"] "B").1.1 ≠ p.1)
            ∧ (∀ p ∈ [((1 : Nat), ([] : List Mention))],
                (reaggregateHeap [] ⟨[(0, [])], [(1, [])], 2⟩ 0 1 ["A"] "B").1.2 ≠ p.1)
            ∧ hlookup (reaggregateHeap [] ⟨[(0, [])], [(1, [])], 2⟩ 0 1 ["A"] "B").1.1
                (reaggregateHeap [] ⟨[(0, [])], [(1, [])], 2⟩ 0 1 ["A"] "B").2.summaries
              = some (reaggregate_with_aliases []
                  ((hlookup 0 [((0 : Nat), ([] : Summary))]).getD [])
                  ((hlookup 1 [((1 : Nat), ([] : List Mention))]).getD []) ["A"] "B").1
            ∧ hlookup (reaggregateHeap [] ⟨[(0, [])], [(1, [])], 2⟩ 0 1 ["A"] "B").1.2
                (reaggregateHeap [] ⟨[(0, [])], [(1, [])], 2⟩ 0 1 ["A"] "B").2.mentionLists
              = some (reaggregate_with_aliases []
                  ((hlookup 0 [((0 : Nat), ([] : Summary))]).getD [])
                  ((hlookup 1 [((1 : Nat), ([] : List Mention))]).getD []) ["A"] "B").2)) :=
  ⟨by decide, by decide, by decide, by decide,
    reaggregateHeap_no_mutation_fresh_copies [] ⟨[(0, [])], [(1, [])], 2⟩ 0 1 ["A"] "B"
      (by decide) (by decide) (by decide) (by decide)⟩

/-- Counterexample to C3 as stated: with a whitespace-only canonical name
the early return (`app_logic.py` lines 153-155) hands back the caller's own
objects — both returned addresses equal the input addresses — so the
returned collections are the inputs themselves, not independent copies. -/
theorem reaggregateHeap_blank_returns_inputs :
    (reaggregateHeap [] ⟨[(0, [("A", [])])], [(1, [])], 2⟩ 0 1 ["A"] " ").1.1 = 0
      ∧ (reaggregateHeap [] ⟨[(0, [("A", [])])], [(1, [])], 2⟩ 0 1 ["A"] " ").1.2 = 1 := by
  decide

end PSA
